import Mathlib

/-
  Verification development for the DRP1987/Canbus-monitoring signal-matching
  engine.

  The embedding mirrors the Python sources:
    - `Signal` models the parsed signal-configuration dictionary consumed by
      `SignalMatcher.match_signal` (src/canbus/signal_matcher.py).  Fields that
      may be absent from the dictionary are `Option`s; `Option.getD` models
      `dict.get(key, default)`.
    - Python list indexing `data[i]` (which wraps negative indices and raises
      `IndexError` when out of range) is `pyGetItem`; a raised exception is the
      `none` value, propagated through `Option Bool` results.
    - `_validate_signal` models `ConfigurationLoader._validate_signal`
      (src/config/config_loader.py) over a presence-abstraction of the raw
      JSON signal dictionary.
    - `_parse_value` models `ConfigurationLoader._parse_value`; Python strings
      are embedded as `List Char`.  The Python built-in `int(s)` / `int(s, 16)`
      is modelled on sign-plus-digits forms; the whitespace trimming and
      underscore digit separators that the built-in additionally accepts are
      outside every configuration shape this repository uses and are not
      modelled.
-/

/-- Python list indexing `l[i]`: a negative index counts from the end of the
list; an index that is still out of range raises `IndexError`, modelled as
`none`. -/
def pyGetItem (l : List Int) (i : Int) : Option Int :=
  let j : Int := if i < 0 then (l.length : Int) + i else i
  if 0 ≤ j then l.get? j.toNat else none

/-- The parsed signal-configuration dictionary, after
`ConfigurationLoader.load_configurations` has normalized its numeric values to
integers.  Every key the repository's configurations and tests place in this
dictionary is a field; `none` means the key is absent.  The matcher in
src/canbus/signal_matcher.py reads only `can_id`, `match_type`, `data`,
`data_byte_index`, `min_value` and `max_value`; the remaining keys
(`byte_index`, `bit_index`, `bit_value`, `protocol`) appear in the repository's
configurations and test fixtures but are never consulted by the matcher. -/
structure Signal where
  can_id : Option Int := none
  match_type : Option String := none
  data : Option (List Int) := none
  data_byte_index : Option Int := none
  min_value : Option Int := none
  max_value : Option Int := none
  byte_index : Option Int := none
  bit_index : Option Int := none
  bit_value : Option Int := none
  protocol : Option String := none
deriving Repr

/-- Embeds `SignalMatcher._match_exact`: `expected_data = signal_config.get('data', [])`
followed by `data == expected_data`. -/
def _match_exact (s : Signal) (data : List Int) : Bool :=
  decide (data = s.data.getD [])

/-- Embeds `SignalMatcher._match_range`: reads `data_byte_index` (default 0),
`min_value` (default 0), `max_value` (default 255); returns `False` when
`byte_index >= len(data)`, otherwise tests `min_value <= data[byte_index] <= max_value`.
The `data[byte_index]` access can raise `IndexError` (modelled `none`) when
`byte_index` is negative and the payload is shorter than its magnitude. -/
def _match_range (s : Signal) (data : List Int) : Option Bool :=
  let byte_index := s.data_byte_index.getD 0
  let min_value := s.min_value.getD 0
  let max_value := s.max_value.getD 255
  if (data.length : Int) ≤ byte_index then
    some false
  else
    match pyGetItem data byte_index with
    | none => none
    | some byte_value => some (decide (min_value ≤ byte_value ∧ byte_value ≤ max_value))

/-- Embeds `SignalMatcher.match_signal`: returns `False` on a CAN-identifier
mismatch (including an absent `can_id` key), then dispatches on
`match_type` (default `'exact'`): `'exact'` and `'range'` are handled, any
other value returns `False`. -/
def match_signal (s : Signal) (can_id : Int) (data : List Int) : Option Bool :=
  if s.can_id ≠ some can_id then
    some false
  else
    let match_type := s.match_type.getD "exact"
    if match_type = "exact" then
      some (_match_exact s data)
    else if match_type = "range" then
      _match_range s data
    else
      some false

/-- Embeds the signal-status portion of `MonitoringScreen._on_message_received`
(src/gui/monitoring_screen.py, lines 450-459): on every received frame, for
every configured signal, the signal widget's displayed status is set to the
result of `SignalMatcher.match_signal` for that frame.  The previously
displayed status is never consulted: the loop updates each widget
unconditionally. -/
def _on_message_received_statuses (signal_matchers : List Signal) (can_id : Int)
    (data : List Int) : List (Option Bool) :=
  signal_matchers.map (fun s => match_signal s can_id data)

/-- Presence-abstraction of a raw (pre-parse) signal dictionary, as inspected
by `ConfigurationLoader._validate_signal`, which only tests key presence, the
value of `match_type`, and whether `data` is a list.  `match_type = none`
means the key is absent; `has_data_list = none` means the `data` key is
absent, `some b` means it is present and `b` says whether the value is a
Python list. -/
structure RawSignal where
  has_name : Bool := false
  has_can_id : Bool := false
  match_type : Option String := none
  has_data_list : Option Bool := none
  has_data_byte_index : Bool := false
  has_min_value : Bool := false
  has_max_value : Bool := false
  has_byte_index : Bool := false
  has_bit_index : Bool := false
  has_bit_value : Bool := false
deriving Repr

/-- Embeds `ConfigurationLoader._validate_signal`: requires `name`, `can_id`
and `match_type` keys; for `match_type == 'exact'` requires a `data` key
holding a list; for `match_type == 'range'` requires `data_byte_index`,
`min_value` and `max_value`; any other `match_type` value is rejected. -/
def _validate_signal (s : RawSignal) : Bool :=
  match s.match_type with
  | none => false
  | some mt =>
    s.has_name && s.has_can_id &&
      (if mt = "exact" then s.has_data_list = some true
       else if mt = "range" then
         s.has_data_byte_index && s.has_min_value && s.has_max_value
       else false)

/-- A raw Python value as it may appear in a configuration field: an integer,
a string (embedded as its character list), or a value of any other Python
type (list, dict, float, None, ...). -/
inductive PyRaw where
  | int (n : Int)
  | str (s : List Char)
  | other
deriving Repr

/-- The errors `ConfigurationLoader._parse_value` can raise: `valueError`
models the `ValueError` escaping from the `int(...)` built-in on an
unparsable string; `invalidValueType` models the explicitly raised
`ValueError("Invalid value type: ...")` for a non-int, non-string value. -/
inductive PyParseError where
  | valueError
  | invalidValueType
deriving Repr, DecidableEq

/-- Value of a single character viewed as a base-16 digit (`0`-`9` are codes
48-57, `a`-`f` codes 97-102, `A`-`F` codes 65-70), `none` otherwise.  A
character is a decimal digit exactly when its value here is below 10. -/
def hexDigitVal (c : Char) : Option Nat :=
  if 48 ≤ c.toNat ∧ c.toNat ≤ 57 then some (c.toNat - 48)
  else if 97 ≤ c.toNat ∧ c.toNat ≤ 102 then some (c.toNat - 87)
  else if 65 ≤ c.toNat ∧ c.toNat ≤ 70 then some (c.toNat - 55)
  else none

/-- Left-to-right accumulation of the digits of `ds` in base `base`,
failing on any character that is not a digit of that base. -/
def digitsVal (base : Nat) (ds : List Char) (acc : Nat) : Option Nat :=
  match ds with
  | [] => some acc
  | c :: rest =>
    match hexDigitVal c with
    | none => none
    | some d => if d < base then digitsVal base rest (base * acc + d) else none

/-- Digit-string value in base `base`, requiring at least one digit (the
Python built-in raises on an empty digit sequence). -/
def digitsNonempty (base : Nat) (ds : List Char) : Option Nat :=
  match ds with
  | [] => none
  | _ => digitsVal base ds 0

/-- Model of the Python built-in `int(s)` (base 10) on sign-plus-digits
forms: an optional leading `+` or `-` followed by one or more decimal
digits. -/
def pyIntBase10 (s : List Char) : Option Int :=
  match s with
  | [] => none
  | c :: rest =>
    if c = '-' then (digitsNonempty 10 rest).map (fun n => -(n : Int))
    else if c = '+' then (digitsNonempty 10 rest).map (fun n => (n : Int))
    else (digitsNonempty 10 (c :: rest)).map (fun n => (n : Int))

/-- Drops one optional `0x` / `0X` base marker, as `int(s, 16)` accepts. -/
def dropHexMarker (s : List Char) : List Char :=
  match s with
  | c0 :: c1 :: rest =>
    if c0 = '0' ∧ (c1 = 'x' ∨ c1 = 'X') then rest else c0 :: c1 :: rest
  | _ => s

/-- Model of the Python built-in `int(s, 16)` on sign-plus-digits forms: an
optional sign, an optional `0x`/`0X` marker, then one or more hexadecimal
digits. -/
def pyIntBase16 (s : List Char) : Option Int :=
  match s with
  | [] => none
  | c :: rest =>
    if c = '-' then (digitsNonempty 16 (dropHexMarker rest)).map (fun n => -(n : Int))
    else if c = '+' then (digitsNonempty 16 (dropHexMarker rest)).map (fun n => (n : Int))
    else (digitsNonempty 16 (dropHexMarker (c :: rest))).map (fun n => (n : Int))

/-- Tests `value.lower().startswith('0x')` at character level: since no
character lower-cases to `0`, and exactly `x` and `X` lower-case to `x`, the
lowered string starts with `0x` iff the first character is `0` and the second
is `x` or `X`. -/
def startsWith0x (s : List Char) : Bool :=
  match s with
  | c0 :: c1 :: _ => c0 = '0' && (c1 = 'x' || c1 = 'X')
  | _ => false

/-- Embeds `ConfigurationLoader._parse_value`: a string whose lowering starts
with `0x` is parsed with `int(value, 16)`, any other string with
`int(value)`, an integer is returned unchanged, and a value of any other type
raises `ValueError("Invalid value type: ...")`. -/
def _parse_value (v : PyRaw) : Except PyParseError Int :=
  match v with
  | .str s =>
    if startsWith0x s then
      match pyIntBase16 s with
      | some n => .ok n
      | none => .error .valueError
    else
      match pyIntBase10 s with
      | some n => .ok n
      | none => .error .valueError
  | .int n => .ok n
  | .other => .error .invalidValueType

/-- Numeric value of a digit string in base `base` (most-significant digit
first), the reference value for the parser theorems. -/
def digitsValue (base : Nat) (ds : List Char) : Int :=
  (ds.foldl (fun a c => base * a + ((hexDigitVal c).getD 0)) 0 : Nat)

/-- The signal configuration of the repository's LED-latching scenario: an
exact rule on identifier 0x119 expecting payload `[0,0,0,0x29,0,0,0,0]`
(test_led_latching.py). -/
def signalRuleLatch : Signal :=
  { can_id := some 0x119, match_type := some "exact",
    data := some [0, 0, 0, 0x29, 0, 0, 0, 0] }

/-- The J1939 rule of the spec's concrete scenario and of test_j1939_pgn.py:
identifier 0x18F00401 (PGN 0xF004), protocol `'j1939'`, range over byte 3 with
bounds 0x06..0xFF. -/
def signalRuleJ1939 : Signal :=
  { can_id := some 0x18F00401, match_type := some "range",
    protocol := some "j1939", byte_index := some 3,
    min_value := some 6, max_value := some 255 }

/-- The bit rule of the spec's concrete scenario and of test_bit_matching.py:
identifier 0x119, byte 3, bit 0, expected bit value 1. -/
def signalRuleBit : Signal :=
  { can_id := some 0x119, match_type := some "bit",
    byte_index := some 3, bit_index := some 0, bit_value := some 1 }

/-- A range rule giving the examined byte's index (3) under the `byte_index`
key, with no `data_byte_index` key. -/
def signalRuleRangeByteIndexKey : Signal :=
  { can_id := some 0x18F00401, match_type := some "range",
    byte_index := some 3, min_value := some 6, max_value := some 255 }

/-- The same range rule with the index (3) under the legacy `data_byte_index`
key instead. -/
def signalRuleRangeLegacyKey : Signal :=
  { can_id := some 0x18F00401, match_type := some "range",
    data_byte_index := some 3, min_value := some 6, max_value := some 255 }

/-- A raw bit rule carrying every field the spec requires for
`match_type == 'bit'`: `name`, `can_id`, `match_type`, `byte_index`,
`bit_index` and `bit_value`. -/
def rawBitSignalComplete : RawSignal :=
  { has_name := true, has_can_id := true, match_type := some "bit",
    has_byte_index := true, has_bit_index := true, has_bit_value := true }

/-- A well-formed range rule (all numeric fields integers) whose
`data_byte_index` is the integer -1. -/
def signalRuleNegativeIndex : Signal :=
  { can_id := some 1, match_type := some "range",
    data_byte_index := some (-1), min_value := some 0, max_value := some 255 }

/-
  Theorems.
-/

/-- Helper: `digitsVal` accumulates exactly the base-`base` fold of the digit
values, provided every character is a digit of that base. -/
theorem digitsVal_eq_foldl (base : Nat) (ds : List Char) (acc : Nat)
    (h : ∀ c ∈ ds, ∃ d, hexDigitVal c = some d ∧ d < base) :
    digitsVal base ds acc
      = some (ds.foldl (fun a c => base * a + ((hexDigitVal c).getD 0)) acc) := by
  induction ds generalizing acc with
  | nil => rfl
  | cons c rest ih =>
    obtain ⟨d, hd, hdb⟩ := h c (List.mem_cons_self c rest)
    simp only [digitsVal, hd, hdb, if_pos, List.foldl_cons, Option.getD_some]
    exact ih _ (fun x hx => h x (List.mem_cons_of_mem c hx))

/-- Helper: every defined hex-digit value is below 16. -/
theorem hexDigitVal_lt_16 (c : Char) (d : Nat) (h : hexDigitVal c = some d) :
    d < 16 := by
  unfold hexDigitVal at h
  split_ifs at h with h1 h2 h3 <;> (injection h with h; omega)

/-- C1: Latching display state.  The embedded `_on_message_received` loop sets
every signal widget's displayed state to `match_signal`'s result on every
frame.  After the relevant matching frame the computed status is `true`, but a
subsequent frame with the unrelated identifier 0x456 computes and displays
`false` instead of preserving the latched `true`: the claimed latching does
not occur in the code. -/
theorem irrelevant_frame_overwrites_led_state :
    _on_message_received_statuses [signalRuleLatch] 0x119 [0, 0, 0, 0x29, 0, 0, 0, 0]
      = [some true] ∧
    _on_message_received_statuses [signalRuleLatch] 0x456 [0, 0, 0, 0x29, 0, 0, 0, 0]
      = [some false] := by decide

/-- C2: J1939 relevance.  The frame identifier 0x0CF00400 and the rule
identifier 0x18F00401 share PGN 0xF004 (first conjunct), so per the claim the
frame with payload byte 3 = 0x10 in [0x06, 0xFF] should match; but
`match_signal` compares full identifiers and has no protocol handling, so it
returns `false`. -/
theorem j1939_pgn_matching_not_implemented :
    (((0x0CF00400 : Nat) >>> 8) &&& 0xFFFF = ((0x18F00401 : Nat) >>> 8) &&& 0xFFFF) ∧
    match_signal signalRuleJ1939 0x0CF00400 [0, 0, 0, 0x10, 0, 0, 0, 0] = some false := by
  decide

/-- C3: Bit policy.  For the bit rule (byte 3, bit 0, expected 1) on its own
identifier 0x119, the claim demands `true` on payload byte 3 = 0x29 and
`false` on 0x28; `match_signal` has no `'bit'` branch and returns `false` for
both payloads through its unknown-match-type fallback. -/
theorem bit_match_type_not_implemented :
    match_signal signalRuleBit 0x119 [0, 0, 0, 0x29, 0, 0, 0, 0] = some false ∧
    match_signal signalRuleBit 0x119 [0, 0, 0, 0x28, 0, 0, 0, 0] = some false := by decide

/-- C4: Range policy.  For a rule with `match_type = 'range'`, byte index `b`
(non-negative) under `data_byte_index`, bounds `mn`/`mx`, and a frame with the
rule's identifier: if `b >= len(payload)` the result is `false`; otherwise the
result is `true` iff `mn <= payload[b] <= mx`, with both boundary outsiders
`mn - 1` and `mx + 1` yielding `false`. -/
theorem range_policy_spec (s : Signal) (can_id b mn mx : Int) (data : List Int)
    (hmt : s.match_type = some "range") (hid : s.can_id = some can_id)
    (hb : s.data_byte_index = some b) (hb0 : 0 ≤ b)
    (hmn : s.min_value = some mn) (hmx : s.max_value = some mx) :
    ((data.length : Int) ≤ b → match_signal s can_id data = some false) ∧
    (∀ v, data.get? b.toNat = some v →
      ((match_signal s can_id data = some true ↔ (mn ≤ v ∧ v ≤ mx)) ∧
       (v = mn - 1 → match_signal s can_id data = some false) ∧
       (v = mx + 1 → match_signal s can_id data = some false))) := by
  have hms : match_signal s can_id data = _match_range s data := by
    simp [match_signal, hid, hmt]
  constructor
  · intro hlen
    rw [hms]
    simp [_match_range, hb, hlen]
  · intro v hv
    obtain ⟨hlt, -⟩ := List.get?_eq_some.mp hv
    have hblt : b < (data.length : Int) := by
      have := Int.toNat_of_nonneg hb0
      omega
    have hnneg : ¬ b < 0 := by omega
    have hpy : pyGetItem data b = some v := by
      have hv2 : data[b.toNat]? = some v := by
        rw [← List.get?_eq_getElem?]
        exact hv
      simp [pyGetItem, hnneg, hb0, hv2]
    have hnlen : ¬ ((data.length : Int) ≤ b) := by omega
    have hcore : match_signal s can_id data = some (decide (mn ≤ v ∧ v ≤ mx)) := by
      rw [hms]
      simp [_match_range, hb, hmn, hmx, hnlen, hpy]
    refine ⟨?_, ?_, ?_⟩
    · rw [hcore]
      simp only [Option.some.injEq, decide_eq_true_eq]
    · intro hveq
      subst hveq
      have hno : ¬ (mn ≤ mn - 1 ∧ mn - 1 ≤ mx) := by omega
      rw [hcore]
      simp [hno]
    · intro hveq
      subst hveq
      have hno : ¬ (mn ≤ mx + 1 ∧ mx + 1 ≤ mx) := by omega
      rw [hcore]
      simp [hno]

/-- C4 witness: a concrete range rule (byte 2, bounds [5, 10]) matching the
payload `[0, 0, 7]`. -/
theorem range_policy_spec_witness :
    match_signal
      { can_id := some 0x119, match_type := some "range", data_byte_index := some 2,
        min_value := some 5, max_value := some 10 } 0x119 [0, 0, 7] = some true := by
  have h := range_policy_spec
    { can_id := some 0x119, match_type := some "range", data_byte_index := some 2,
      min_value := some 5, max_value := some 10 }
    0x119 2 5 10 [0, 0, 7] rfl rfl rfl (by decide) rfl rfl
  exact ((h.2 7 rfl).1).mpr (by decide)

/-- C5: Byte-index alias.  Supplying the examined index 3 under `byte_index`
is not interchangeable with supplying it under `data_byte_index`: the code
reads only `data_byte_index` (default 0), so the first rule examines byte 0
and misses while the second matches, on the very same frame. -/
theorem byte_index_key_not_alias_of_data_byte_index :
    match_signal signalRuleRangeByteIndexKey 0x18F00401 [0, 0, 0, 0x10, 0, 0, 0, 0]
      = some false ∧
    match_signal signalRuleRangeLegacyKey 0x18F00401 [0, 0, 0, 0x10, 0, 0, 0, 0]
      = some true := by decide

/-- C6: Exact policy.  For a rule with `match_type = 'exact'`, expected bytes
`ed` and a frame with the rule's identifier, the match result is `true` iff
the payload has exactly the length of `ed` and agrees with it element for
element; any difference yields `false`. -/
theorem exact_policy_spec (s : Signal) (can_id : Int) (data ed : List Int)
    (hmt : s.match_type = some "exact") (hid : s.can_id = some can_id)
    (hd : s.data = some ed) :
    (match_signal s can_id data = some true ↔
      (data.length = ed.length ∧ ∀ i, data.get? i = ed.get? i)) ∧
    (data ≠ ed → match_signal s can_id data = some false) := by
  have hms : match_signal s can_id data = some (decide (data = ed)) := by
    simp [match_signal, hid, hmt, _match_exact, hd]
  constructor
  · rw [hms]
    simp only [Option.some.injEq, decide_eq_true_eq]
    constructor
    · rintro rfl
      exact ⟨rfl, fun i => rfl⟩
    · rintro ⟨hlen, hget⟩
      exact List.ext hget
  · intro hne
    rw [hms]
    simp [hne]

/-- C6 witness: the exact rule on 0x119 matching its own expected payload. -/
theorem exact_policy_spec_witness :
    match_signal
      { can_id := some 0x119, match_type := some "exact",
        data := some [0, 0, 0, 0x29, 0, 0, 0, 0] }
      0x119 [0, 0, 0, 0x29, 0, 0, 0, 0] = some true := by
  have h := exact_policy_spec
    { can_id := some 0x119, match_type := some "exact",
      data := some [0, 0, 0, 0x29, 0, 0, 0, 0] }
    0x119 [0, 0, 0, 0x29, 0, 0, 0, 0] [0, 0, 0, 0x29, 0, 0, 0, 0] rfl rfl rfl
  exact h.1.mpr ⟨rfl, fun i => rfl⟩

/-- C7: Bit-rule validation.  A raw rule description carrying `name`,
`can_id`, `match_type == 'bit'` and all three of `byte_index`, `bit_index`,
`bit_value` is nonetheless rejected: `_validate_signal` has no `'bit'` case
and refuses every bit rule through its unknown-match-type fallback. -/
theorem complete_bit_rule_rejected_by_validation :
    _validate_signal rawBitSignalComplete = false := by decide

/-- C8 counterexample: a rule whose numeric fields are all integers (so
well-formed in the claim's sense) with `data_byte_index = -1` makes
`match_signal` raise `IndexError` (modelled `none`) on the empty payload:
`-1 >= len([])` is false, and `[][-1]` raises. -/
theorem match_signal_indexerror_on_negative_byte_index :
    match_signal signalRuleNegativeIndex 1 [] = none := by decide

/-- C8 (amended): for every rule whose `data_byte_index` (default 0) is
non-negative, `match_signal` terminates and returns a boolean — out-of-range
byte indices and arbitrary payload lengths, the empty payload included,
degrade to a definite result and never to an error. -/
theorem match_signal_total_for_nonneg_byte_index (s : Signal) (can_id : Int)
    (data : List Int) (hb : 0 ≤ s.data_byte_index.getD 0) :
    ∃ b, match_signal s can_id data = some b := by
  unfold match_signal
  by_cases hid : s.can_id ≠ some can_id
  · exact ⟨false, by simp [hid]⟩
  · by_cases h1 : s.match_type.getD "exact" = "exact"
    · exact ⟨_match_exact s data, by simp [hid, h1]⟩
    · by_cases h2 : s.match_type.getD "exact" = "range"
      · have hr : ∃ b, _match_range s data = some b := by
          unfold _match_range
          by_cases h3 : (data.length : Int) ≤ s.data_byte_index.getD 0
          · exact ⟨false, by simp [h3]⟩
          · have hnat : (s.data_byte_index.getD 0).toNat < data.length := by
              have := Int.toNat_of_nonneg hb
              omega
            have hpy : pyGetItem data (s.data_byte_index.getD 0)
                = some (data.get ⟨(s.data_byte_index.getD 0).toNat, hnat⟩) := by
              have hnneg : ¬ (s.data_byte_index.getD 0 < 0) := by omega
              simp [pyGetItem, hnneg, hb, List.get?_eq_get hnat]
            exact ⟨_, by
              simp only [_match_range]
              rw [if_neg h3, hpy]⟩
        obtain ⟨b, hbr⟩ := hr
        exact ⟨b, by simp [hid, h1, h2, hbr]⟩
      · exact ⟨false, by simp [hid, h1, h2]⟩

/-- C8 witness: the totality theorem applied to a rule whose byte index 9 is
far beyond the empty payload. -/
theorem match_signal_total_witness :
    ∃ b, match_signal
      { can_id := some 1, match_type := some "range", data_byte_index := some 9 }
      1 [] = some b :=
  match_signal_total_for_nonneg_byte_index
    { can_id := some 1, match_type := some "range", data_byte_index := some 9 }
    1 [] (by decide)

/-- C9: Value normalization.  `_parse_value` maps a plain integer to itself, a
decimal digit string (every character a digit below 10 in value) to its
decimal value, a hexadecimal digit string with `0x` or `0X` prefix
(case-insensitive) to its hexadecimal value, and raises the
invalid-value-type error on a value of any other type instead of returning a
value. -/
theorem parse_value_spec :
    (∀ n : Int, _parse_value (.int n) = .ok n) ∧
    (∀ ds : List Char, ds ≠ [] → (∀ c ∈ ds, ∃ d, hexDigitVal c = some d ∧ d < 10) →
      _parse_value (.str ds) = .ok (digitsValue 10 ds)) ∧
    (∀ ds : List Char, ds ≠ [] → (∀ c ∈ ds, (hexDigitVal c).isSome) →
      (_parse_value (.str ('0' :: 'x' :: ds)) = .ok (digitsValue 16 ds) ∧
       _parse_value (.str ('0' :: 'X' :: ds)) = .ok (digitsValue 16 ds))) ∧
    (_parse_value .other = .error .invalidValueType) := by
  refine ⟨fun n => rfl, ?_, ?_, rfl⟩
  · intro ds hne hdig
    cases ds with
    | nil => exact absurd rfl hne
    | cons c rest =>
      have hnotdig : ∀ x : Char, hexDigitVal x = none → ∀ x0 ∈ c :: rest, x0 = x → False := by
        intro x hx x0 hx0 heq
        obtain ⟨d, hd, -⟩ := hdig x0 hx0
        rw [heq, hx] at hd
        exact Option.noConfusion hd
      have hstart : startsWith0x (c :: rest) = false := by
        cases rest with
        | nil => rfl
        | cons c1 rest1 =>
          have hx : c1 ≠ 'x' := fun h => hnotdig 'x' (by decide) c1 (by simp) h
          have hX : c1 ≠ 'X' := fun h => hnotdig 'X' (by decide) c1 (by simp) h
          simp [startsWith0x, hx, hX]
      have hminus : c ≠ '-' := fun h => hnotdig '-' (by decide) c (by simp) h
      have hplus : c ≠ '+' := fun h => hnotdig '+' (by decide) c (by simp) h
      have hval : digitsNonempty 10 (c :: rest)
          = some ((c :: rest).foldl (fun a x => 10 * a + ((hexDigitVal x).getD 0)) 0) := by
        unfold digitsNonempty
        exact digitsVal_eq_foldl 10 (c :: rest) 0 (fun x hx => hdig x hx)
      have hparse : pyIntBase10 (c :: rest)
          = some ((digitsValue 10 (c :: rest) : Int)) := by
        simp [pyIntBase10, hminus, hplus, hval, digitsValue]
      simp [_parse_value, hstart, hparse]
  · intro ds hne hhex
    have hdigits : ∀ x ∈ ds, ∃ d, hexDigitVal x = some d ∧ d < 16 := by
      intro x hx
      obtain ⟨d, hd⟩ := Option.isSome_iff_exists.mp (hhex x hx)
      exact ⟨d, hd, hexDigitVal_lt_16 x d hd⟩
    have hval : digitsNonempty 16 ds
        = some (ds.foldl (fun a x => 16 * a + ((hexDigitVal x).getD 0)) 0) := by
      cases ds with
      | nil => exact absurd rfl hne
      | cons c rest =>
        unfold digitsNonempty
        exact digitsVal_eq_foldl 16 (c :: rest) 0 hdigits
    constructor
    · have hparse : pyIntBase16 ('0' :: 'x' :: ds)
          = some ((digitsValue 16 ds : Int)) := by
        simp [pyIntBase16, dropHexMarker, hval, digitsValue]
      simp [_parse_value, startsWith0x, hparse]
    · have hparse : pyIntBase16 ('0' :: 'X' :: ds)
          = some ((digitsValue 16 ds : Int)) := by
        simp [pyIntBase16, dropHexMarker, hval, digitsValue]
      simp [_parse_value, startsWith0x, hparse]

/-- C9 witness: the parser at one value of each input shape — the integer -7,
the decimal string `291`, the hexadecimal string `0X1a`, and a value of
another type. -/
theorem parse_value_spec_witness :
    _parse_value (.int (-7)) = .ok (-7) ∧
    _parse_value (.str ['2', '9', '1']) = .ok 291 ∧
    _parse_value (.str ['0', 'X', '1', 'a']) = .ok 26 ∧
    _parse_value .other = .error .invalidValueType := by
  have hdec := parse_value_spec.2.1 ['2', '9', '1'] (by decide)
    (by decide)
  have hhex := (parse_value_spec.2.2.1 ['1', 'a'] (by decide) (by decide)).2
  have e1 : digitsValue 10 ['2', '9', '1'] = 291 := by decide
  have e2 : digitsValue 16 ['1', 'a'] = 26 := by decide
  rw [e1] at hdec
  rw [e2] at hhex
  exact ⟨parse_value_spec.1 (-7), hdec, hhex, parse_value_spec.2.2.2⟩


/-- C10: Missing match_type.  When the rule dictionary lacks the `match_type`
key, `match_signal` silently evaluates the rule under the exact policy
against the `data` field defaulted to the empty list, so with `data` also
absent such a rule matches exactly the empty payload on its identifier. -/
theorem missing_match_type_defaults_to_exact (s : Signal) (can_id : Int)
    (data : List Int) (hmt : s.match_type = none) (hid : s.can_id = some can_id) :
    match_signal s can_id data = some (decide (data = s.data.getD [])) ∧
    (s.data = none → (match_signal s can_id data = some true ↔ data = [])) := by
  have hms : match_signal s can_id data = some (decide (data = s.data.getD [])) := by
    simp [match_signal, hid, hmt, _match_exact]
  refine ⟨hms, fun hd => ?_⟩
  rw [hms, hd]
  simp

/-- C10 witness: a rule with only a `can_id` key matches the empty payload on
its identifier. -/
theorem missing_match_type_defaults_to_exact_witness :
    match_signal { can_id := some 7 } 7 [] = some true := by
  have h := missing_match_type_defaults_to_exact { can_id := some 7 } 7 [] rfl rfl
  exact (h.2 rfl).mpr rfl
